import Mathlib

set_option maxRecDepth 200000

/-!  Verification development for the bizinfo-telegram-alert repository.

The repository consists of three Python scripts:
  * `final_bizinfo.py`  - structured-API pipeline (fetch, normalize, filter,
    classify, category-digest notify, seen-set persistence);
  * `kstartup_alert.py` - HTML-listing pipeline with sha256-based identifiers;
  * `iris_alert.py`     - HTML-listing pipeline with a line-cursor scanner.

Every definition below is a shallow embedding of a concrete function of the
source (same name where Lean allows); I/O wrappers (HTTP, file system,
BeautifulSoup) are out of scope and replaced by their results, exactly as the
spec's interface section treats them.  Machine strings are Lean `String`s
(Python 3 `str` is a sequence of code points, as is `String.data`).
-/

/-! ## Python-style string primitives -/

/-- Python truthiness for strings: `a or b` returns `a` when `a` is non-empty,
else `b`.  Used for `it.get("x") or it.get("y") or ""` chains. -/
def pyOr (a b : String) : String := if a = "" then b else a

/-- Source: `charListPref n h` : the char list `n` is a leading run of `h`. -/
def charListPref : List Char → List Char → Bool
  | [], _ => true
  | _ :: _, [] => false
  | a :: as, b :: bs => a == b && charListPref as bs

/-- Source: `charListInf n h` : `n` occurs contiguously somewhere inside `h`
(Python's `n in h` on strings). -/
def charListInf (n : List Char) : List Char → Bool
  | [] => n.isEmpty
  | b :: bs => charListPref n (b :: bs) || charListInf n bs

/-- Python `needle in hay` (substring containment). -/
def strIn (needle hay : String) : Bool := charListInf needle.data hay.data

/-- Python `s.startswith(pat)`. -/
def pyStartsWith (pat s : String) : Bool := charListPref pat.data s.data

/-- Python `" ".join(parts)`. -/
def joinSp : List String → String
  | [] => ""
  | [x] => x
  | x :: xs => x ++ " " ++ joinSp xs

/-- Python `"\n".join(parts)`. -/
def joinNl : List String → String
  | [] => ""
  | [x] => x
  | x :: xs => x ++ "\n" ++ joinNl xs

/-! ## `final_bizinfo.py`: record shape, relevance filter, classifier -/

/-- A Bizinfo announcement record: the string-valued dict keys that
`final_bizinfo.py` ever reads (a missing key behaves as `""`, which is how
`item.get(k, "")` and the `or`-chains treat it). -/
structure Item where
  title : String := ""
  pblancNm : String := ""
  description : String := ""
  author : String := ""
  excInsttNm : String := ""
  hashTags : String := ""
  hashtags : String := ""
  reqstDt : String := ""
  link : String := ""
  seq : String := ""
  pblancId : String := ""
  pblancUrl : String := ""
  reqstBeginEndDe : String := ""
deriving DecidableEq, Repr

/-- Source: `KEYWORDS` of `final_bizinfo.py` (relevance filter, lines 12-18). -/
def KEYWORDS : List String := [
  "전북", "전라북도", "전북특별자치도",
  "충남", "충청남도", "천안", "천안시",
  "융자", "대출", "자금", "자금지원", "정책자금", "보증", "이차보전",
  "수출", "수출지원", "해외진출", "바우처", "수출바우처",
  "과제", "R&D", "r&d", "연구개발", "지원사업", "사업화", "실증", "PoC", "테스트베드", "검증"]

/-- Text blob of `matches_keywords` (lines 100-109): note it includes
`author` and `excInsttNm`, which the classifier's blob does not. -/
def keywordText (it : Item) : String :=
  joinSp [it.title, it.pblancNm, it.description, it.author,
          it.excInsttNm, it.hashTags, it.reqstDt, it.link]

/-- Source: `any k in text for k in terms`. -/
def hasAnyTerm (terms : List String) (text : String) : Bool :=
  terms.any (fun k => strIn k text)

/-- Source: `matches_keywords` (lines 95-110). -/
def matches_keywords (it : Item) : Bool :=
  hasAnyTerm KEYWORDS (keywordText it)

/-- Source: `JEONBUK_TERMS` (lines 133-138). -/
def JEONBUK_TERMS : List String := [
  "전북", "전라북도", "전북특별자치도",
  "전주시", "군산시", "익산시", "정읍시", "남원시", "김제시",
  "완주군", "진안군", "무주군", "장수군", "임실군", "순창군",
  "고창군", "부안군"]

/-- Source: `CHUNGNAM_TERMS` (line 141). -/
def CHUNGNAM_TERMS : List String := ["충남", "충청남도", "천안", "천안시"]

/-- Source: `FIN_TERMS` (line 143). -/
def FIN_TERMS : List String :=
  ["융자", "대출", "정책자금", "보증", "이차보전", "자금", "자금지원", "운전자금", "시설자금"]

/-- Source: `EXPORT_TERMS` (line 144). -/
def EXPORT_TERMS : List String :=
  ["수출", "해외진출", "수출지원", "수출바우처", "바우처", "해외마케팅", "해외전시", "무역", "통상"]

/-- Source: `RND_TERMS` (line 145). -/
def RND_TERMS : List String :=
  ["과제", "R&D", "r&d", "연구개발", "지원사업", "사업화", "실증", "PoC", "poc", "테스트베드", "검증", "시범", "데모"]

/-- Text blob of `classify_item` (lines 123-131): title, pblancNm,
description, hashTags, hashtags, reqstDt, link - no author fields. -/
def classifyText (it : Item) : String :=
  joinSp [it.title, it.pblancNm, it.description, it.hashTags,
          it.hashtags, it.reqstDt, it.link]

/-- Source: `classify_item` (lines 113-165): five independent substring tests, then a
fixed purpose-first priority chain; `None` when nothing matches. -/
def classify_item (it : Item) : Option String :=
  let text := classifyText it
  let is_exp := hasAnyTerm EXPORT_TERMS text
  let is_fin := hasAnyTerm FIN_TERMS text
  let is_rnd := hasAnyTerm RND_TERMS text
  let is_jb := hasAnyTerm JEONBUK_TERMS text
  let is_cn := hasAnyTerm CHUNGNAM_TERMS text
  if is_exp then some "수출"
  else if is_fin then some "융자·자금"
  else if is_rnd then some "R&D·사업화"
  else if is_jb then some "전북"
  else if is_cn then some "충남·천안"
  else none

/-- The fixed send order of `main` (line 258). -/
def ORDER : List String := ["수출", "융자·자금", "R&D·사업화", "전북", "충남·천안"]

/-- The classifier taxonomy in the spec's resolution order, used to state the
refinement claim: export > financing > R&D/commercialization > region-A
(Jeonbuk) > region-B (Chungnam).  (This definition follows the spec's words;
`classify_item` above follows the source.) -/
def CATEGORY_RULES : List (List String × String) :=
  [(EXPORT_TERMS, "수출"), (FIN_TERMS, "융자·자금"), (RND_TERMS, "R&D·사업화"),
   (JEONBUK_TERMS, "전북"), (CHUNGNAM_TERMS, "충남·천안")]

/-- Spec-worded classifier: the first term-set among the five (in the fixed
order) whose terms substring-match the record's text determines the category;
none matching means no category. -/
def classifySpecOrder (it : Item) : Option String :=
  (CATEGORY_RULES.find? (fun r => hasAnyTerm r.1 (classifyText it))).map Prod.snd

example : classify_item { title := "수출 융자 지원" } = some "수출" := by decide
example : classify_item { title := "융자 지원" } = some "융자·자금" := by decide
example : classify_item { author := "전북" } = none := by decide
example : matches_keywords { author := "전북" } = true := by decide

/-! ## `final_bizinfo.py`: run orchestrator (`main`, lines 203-274)

I/O boundary: the fetched item list, the loaded seen-set and the outcome of
each `telegram_send` call are inputs (`items`, `seen0`, `sendOk`); raising
`requests` exceptions is modelled by aborting the remaining run.  `sendOk k`
tells whether the k-th `telegram_send` of the run returns without raising. -/

/-- Identifier derivation of `main` (line 224):
`str(it.get("seq") or it.get("pblancId") or it.get("link") or "")`. -/
def seqOf (it : Item) : String := pyOr it.seq (pyOr it.pblancId (pyOr it.link ""))

/-- The `new_hits` loop of `main` (lines 222-230): keep items whose identifier
is non-empty, unseen, and which pass the relevance filter (in list order). -/
def computeNewHits (seen : Finset String) (items : List Item) : List (String × Item) :=
  items.filterMap (fun it =>
    let s := seqOf it
    if s = "" then none
    else if s ∈ seen then none
    else if matches_keywords it then some (s, it) else none)

/-- Source: `top = new_hits[:60]` (line 237): the per-run cap. -/
def bizTop (seen : Finset String) (items : List Item) : List (String × Item) :=
  (computeNewHits seen items).take 60

/-- The `(seq, item)` pairs of `top` that land in category `c`
(`grouped` / `seq_by_cat` of lines 240-248, insertion order preserved). -/
def catPairs (top : List (String × Item)) (c : String) : List (String × Item) :=
  top.filter (fun p => classify_item p.2 == some c)

/-- Source: `seq_by_cat[c]` (line 248). -/
def catSeqs (top : List (String × Item)) (c : String) : List String :=
  (catPairs top c).map Prod.fst

/-- Source: `grouped[c]` (line 247). -/
def catItems (top : List (String × Item)) (c : String) : List Item :=
  (catPairs top c).map Prod.snd

/-- Source: `_title` fallback of `build_category_message` (line 184). -/
def itemTitle (it : Item) : String := pyOr it.title (pyOr it.pblancNm "(제목 없음)")

/-- Source: `_link` fallback (line 187). -/
def itemLink (it : Item) : String := pyOr it.link (pyOr it.pblancUrl "")

/-- Source: `_period` fallback (line 190). -/
def itemPeriod (it : Item) : String := pyOr it.reqstDt (pyOr it.reqstBeginEndDe "")

/-- The numbered entry lines of `build_category_message` (lines 197-198),
one per displayed item, numbering starting at `i`. -/
def entryLines : Nat → List Item → List String
  | _, [] => []
  | i, it :: rest =>
    ("\n" ++ toString i ++ ". " ++ itemTitle it ++ "\n   - 신청: " ++ itemPeriod it
      ++ "\n   - " ++ itemLink it) :: entryLines (i + 1) rest

/-- Source: `build_category_message` (lines 179-200): header with total and shown
counts, then at most `max_items` numbered entries. -/
def build_category_message (category : String) (items : List Item) (max_items : Nat) : String :=
  joinNl (["📌 [기업마당 신규 알림 | " ++ category ++ "]",
           "총 " ++ toString items.length ++ "건 (표시 "
             ++ toString (min items.length max_items) ++ "건)"]
          ++ entryLines 1 (items.take max_items))

/-- Observable outcome of one orchestrator run: categories whose message was
sent without raising (in send order), the message texts, the in-memory seen
set when control left `main`, and whether `save_seen` was reached. -/
structure RunSt where
  sent : List String
  msgs : List String
  seenAfter : Finset String
  saved : Bool
deriving DecidableEq

/-- Source: `seen.add(x)` for a batch of identifiers (lines 270-271). -/
def insertList (l : List String) (s : Finset String) : Finset String :=
  l.foldl (fun acc x => Insert.insert x acc) s

/-- The send loop of `main` (lines 260-271) over the remaining categories of
`ORDER`: skip categories with no candidates; otherwise send (counter `k`
numbers the sends); a raising send aborts the whole run, keeping in-memory
additions made so far but never reaching `save_seen`. -/
def bizLoop (sendOk : Nat → Bool) (top : List (String × Item)) :
    List String → Nat → Finset String → RunSt
  | [], _, seen => ⟨[], [], seen, true⟩
  | c :: rest, k, seen =>
    if (catPairs top c).isEmpty then bizLoop sendOk top rest k seen
    else if sendOk k then
      let r := bizLoop sendOk top rest (k + 1) (insertList (catSeqs top c) seen)
      ⟨c :: r.sent, build_category_message c (catItems top c) 10 :: r.msgs,
       r.seenAfter, r.saved⟩
    else ⟨[], [], seen, false⟩

/-- Source: `main` (lines 214-274) after fetch: early return when the fetch produced
nothing, when no new relevance hit exists, or when no capped candidate is
classified (in that case the seen-set is deliberately not touched); otherwise
run the send loop and, if it completes, persist (`save_seen`, line 273). -/
def runBizinfo (sendOk : Nat → Bool) (seen0 : Finset String) (items : List Item) : RunSt :=
  if items.isEmpty then ⟨[], [], seen0, false⟩
  else if (computeNewHits seen0 items).isEmpty then ⟨[], [], seen0, false⟩
  else if (bizTop seen0 items).all (fun p => (classify_item p.2).isNone) then
    ⟨[], [], seen0, false⟩
  else bizLoop sendOk (bizTop seen0 items) ORDER 0 seen0

/-- Content of `seen.json` after a run: `save_seen` rewrites it only when the
run completed; otherwise the file keeps the previously loaded set. -/
def persistedAfter (seen0 : Finset String) (r : RunSt) : Finset String :=
  if r.saved then r.seenAfter else seen0

example :
    (runBizinfo (fun _ => true) ∅ [{ title := "수출", seq := "1" }]).sent = ["수출"] := by
  decide

example :
    (runBizinfo (fun _ => true) ∅ [{ title := "수출", seq := "1" }]).saved = true := by
  decide

example :
    (runBizinfo (fun _ => true) {"1"} [{ title := "수출", seq := "1" }]).sent = [] := by
  decide

example :
    (runBizinfo (fun k => k == 0) ∅
      [{ title := "수출", seq := "a" }, { title := "융자", seq := "b" }]).saved = false := by
  decide

/-! ## `final_bizinfo.py`: `normalize_items` (lines 40-67) -/

/-- JSON values as delivered by `requests.Response.json()`. -/
inductive Json where
  | null : Json
  | str (s : String) : Json
  | num (n : Int) : Json
  | bool (b : Bool) : Json
  | arr (elems : List Json) : Json
  | obj (fields : List (String × Json)) : Json

/-- Python `isinstance(x, dict)`. -/
def Json.isObj : Json → Bool
  | .obj _ => true
  | _ => false

/-- Python `d.get(k, None)` on a JSON object (dict keys are unique, so the
first binding decides). -/
def assocFind (fields : List (String × Json)) (k : String) : Option Json :=
  match fields with
  | [] => none
  | (k', v) :: rest => if k' = k then some v else assocFind rest k

/-- Source: `normalize_items` (lines 40-67): the four accepted response shapes are
mapped to one list of record objects; everything else yields `[]`. -/
def normalize_items (data : Json) : List Json :=
  match data with
  | .arr xs => xs.filter Json.isObj
  | .obj fields =>
    match assocFind fields "jsonArray" with
    | some (.arr xs) => xs.filter Json.isObj
    | some (.obj g) =>
      match assocFind g "item" with
      | some (.obj f) => [.obj f]
      | some (.arr xs) => xs.filter Json.isObj
      | _ => []
    | _ => []
  | _ => []

example : normalize_items (.obj []) = [] := rfl
example :
    normalize_items (.obj [("jsonArray", .obj [("item", .obj [("seq", .str "1")])])])
      = [.obj [("seq", .str "1")]] := rfl

/-! ## `kstartup_alert.py`: identifiers and run loop

`make_id` (lines 58-60) is `hashlib.sha256(f"{title}|{link}".encode("utf-8")).hexdigest()`,
so the embedding needs UTF-8 encoding and SHA-256 (FIPS 180-4), both written
out below over `Nat` bytes/words. -/

/-- UTF-8 encoding of one scalar value (every Lean `Char` is a Unicode scalar,
so Python's `errors="ignore"` never drops anything here). -/
def utf8Char (c : Char) : List Nat :=
  let n := c.toNat
  if n < 128 then [n]
  else if n < 2048 then [192 + n / 64, 128 + n % 64]
  else if n < 65536 then [224 + n / 4096, 128 + (n / 64) % 64, 128 + n % 64]
  else [240 + n / 262144, 128 + (n / 4096) % 64, 128 + (n / 64) % 64, 128 + n % 64]

/-- Python `s.encode("utf-8")` as a byte list. -/
def utf8Bytes (s : String) : List Nat := s.data.flatMap utf8Char

/-- The word modulus of SHA-256, 2^32. -/
def w32 : Nat := 4294967296

/-- Right rotation of a 32-bit word. -/
def rotr32 (x n : Nat) : Nat := ((x >>> n) ||| (x <<< (32 - n))) % w32

/-- SHA-256 round constants (FIPS 180-4 section 4.2.2). -/
def shaK : List Nat := [
  1116352408, 1899447441, 3049323471, 3921009573,
  961987163, 1508970993, 2453635748, 2870763221,
  3624381080, 310598401, 607225278, 1426881987,
  1925078388, 2162078206, 2614888103, 3248222580,
  3835390401, 4022224774, 264347078, 604807628,
  770255983, 1249150122, 1555081692, 1996064986,
  2554220882, 2821834349, 2952996808, 3210313671,
  3336571891, 3584528711, 113926993, 338241895,
  666307205, 773529912, 1294757372, 1396182291,
  1695183700, 1986661051, 2177026350, 2456956037,
  2730485921, 2820302411, 3259730800, 3345764771,
  3516065817, 3600352804, 4094571909, 275423344,
  430227734, 506948616, 659060556, 883997877,
  958139571, 1322822218, 1537002063, 1747873779,
  1955562222, 2024104815, 2227730452, 2361852424,
  2428436474, 2756734187, 3204031479, 3329325298]

/-- SHA-256 initial hash value (FIPS 180-4 section 5.3.3). -/
def shaH0 : List Nat := [
  1779033703, 3144134277, 1013904242, 2773480762,
  1359893119, 2600822924, 528734635, 1541459225]

/-- Message padding: append `0x80`, zeros to 56 mod 64, then the bit length
as 8 big-endian bytes. -/
def shaPad (msg : List Nat) : List Nat :=
  let L := msg.length
  let zeros := (119 - L % 64) % 64
  let bitLen := 8 * L
  msg ++ [128] ++ List.replicate zeros 0 ++
    [(bitLen / 72057594037927936) % 256, (bitLen / 281474976710656) % 256,
     (bitLen / 1099511627776) % 256, (bitLen / 4294967296) % 256,
     (bitLen / 16777216) % 256, (bitLen / 65536) % 256,
     (bitLen / 256) % 256, bitLen % 256]

/-- Big-endian 4-byte groups to 32-bit words. -/
def bytesToWords : List Nat → List Nat
  | b0 :: b1 :: b2 :: b3 :: rest =>
    (b0 * 16777216 + b1 * 65536 + b2 * 256 + b3) :: bytesToWords rest
  | _ => []

/-- Split a word list into 16-word blocks (input length is a multiple of 16). -/
def toBlocks : List Nat → List (List Nat)
  | [] => []
  | w0 :: w1 :: w2 :: w3 :: w4 :: w5 :: w6 :: w7 ::
    w8 :: w9 :: w10 :: w11 :: w12 :: w13 :: w14 :: w15 :: rest =>
    [w0, w1, w2, w3, w4, w5, w6, w7, w8, w9, w10, w11, w12, w13, w14, w15]
      :: toBlocks rest
  | l => [l]

/-- One message-schedule extension step appended to the current schedule
(current length is the next index). -/
def extendStep (w : List Nat) : List Nat :=
  let L := w.length
  let x15 := w.getD (L - 15) 0
  let x2 := w.getD (L - 2) 0
  let s0 := rotr32 x15 7 ^^^ rotr32 x15 18 ^^^ (x15 >>> 3)
  let s1 := rotr32 x2 17 ^^^ rotr32 x2 19 ^^^ (x2 >>> 10)
  w ++ [(w.getD (L - 16) 0 + s0 + w.getD (L - 7) 0 + s1) % w32]

/-- Extend a 16-word block to the 64-word schedule (48 steps). -/
def extendN : Nat → List Nat → List Nat
  | 0, w => w
  | n + 1, w => extendN n (extendStep w)

/-- One compression round: state is the eight working registers. -/
def compressStep (st : List Nat) (kw : Nat × Nat) : List Nat :=
  match st with
  | [a, b, c, d, e, f, g, h] =>
    let S1 := rotr32 e 6 ^^^ rotr32 e 11 ^^^ rotr32 e 25
    let ch := (e &&& f) ^^^ ((e ^^^ 4294967295) &&& g)
    let temp1 := (h + S1 + ch + kw.1 + kw.2) % w32
    let S0 := rotr32 a 2 ^^^ rotr32 a 13 ^^^ rotr32 a 22
    let maj := (a &&& b) ^^^ (a &&& c) ^^^ (b &&& c)
    let temp2 := (S0 + maj) % w32
    [(temp1 + temp2) % w32, a, b, c, (d + temp1) % w32, e, f, g]
  | other => other

/-- Process one 512-bit block: run 64 rounds and add back into the chaining
value. -/
def shaBlock (hs : List Nat) (block : List Nat) : List Nat :=
  let ws := extendN 48 block
  let st := (shaK.zip ws).foldl (fun s kw => compressStep s kw) hs
  (hs.zip st).map (fun p => (p.1 + p.2) % w32)

/-- Full SHA-256 over a byte list, producing the eight hash words. -/
def sha256Words (msg : List Nat) : List Nat :=
  (toBlocks (bytesToWords (shaPad msg))).foldl shaBlock shaH0

/-- One lowercase hex digit. -/
def hexDigit (n : Nat) : Char :=
  if n < 10 then Char.ofNat (48 + n) else Char.ofNat (87 + n)

/-- A 32-bit word as 8 lowercase hex digits. -/
def wordHex (x : Nat) : List Char :=
  (List.range 8).map (fun i => hexDigit ((x >>> (28 - 4 * i)) &&& 15))

/-- Source: `hashlib.sha256(bytes).hexdigest()`. -/
def sha256hex (msg : List Nat) : String := String.mk ((sha256Words msg).flatMap wordHex)

/-- Source: `make_id` of `kstartup_alert.py` (lines 58-60). -/
def make_id (title link : String) : String :=
  sha256hex (utf8Bytes (title ++ "|" ++ link))

/-! ## `kstartup_alert.py`: run orchestrator (`main`, lines 109-137) -/

/-- A K-Startup record as built by `fetch_kstartup_items` (line 93). -/
structure KItem where
  title : String := ""
  link : String := ""
deriving DecidableEq, Repr

/-- The `new_hits` loop of `kstartup_alert.main` (lines 119-124): drop records
whose `make_id` is already seen, keep order. -/
def kstartupNewHits (seen : Finset String) (items : List KItem) : List (String × KItem) :=
  items.filterMap (fun it =>
    let sid := make_id it.title it.link
    if sid ∈ seen then none else some (sid, it))

/-- Source: `format_message` (lines 102-107). -/
def format_message (it : KItem) : String :=
  joinNl ["🚀 [K-Startup 신규 공고 알림]",
          "• 제목: " ++ it.title, "• 링크: " ++ it.link]

/-- The per-item send loop (lines 131-134): send, then mark seen; a raising
send aborts the run before `save_seen`.  In the reused `RunSt`, `sent` holds
the identifiers of the successfully sent records. -/
def kstartupLoop (sendOk : Nat → Bool) :
    List (String × KItem) → Nat → Finset String → RunSt
  | [], _, seen => ⟨[], [], seen, true⟩
  | (sid, it) :: rest, k, seen =>
    if sendOk k then
      let r := kstartupLoop sendOk rest (k + 1) (Insert.insert sid seen)
      ⟨sid :: r.sent, format_message it :: r.msgs, r.seenAfter, r.saved⟩
    else ⟨[], [], seen, false⟩

/-- Source: `kstartup_alert.main` after fetch (lines 116-137): cap `new_hits[:30]`,
send per item, persist only when the loop completes. -/
def runKstartup (sendOk : Nat → Bool) (seen0 : Finset String) (items : List KItem) : RunSt :=
  if (kstartupNewHits seen0 items).isEmpty then ⟨[], [], seen0, false⟩
  else kstartupLoop sendOk ((kstartupNewHits seen0 items).take 30) 0 seen0

/-! ## `iris_alert.py`: line-cursor scanner (`extract_receiving_items`, lines 33-111)

The model's input is the flattened page text (the result of
`soup.get_text("\n", strip=True)`); the HTML parser itself is an external
collaborator per the spec's scope section. -/

/-- Whitespace as matched by Python's `str.strip` / regex `\s` on the
characters that can occur in the flattened text. -/
def isPySpace (c : Char) : Bool :=
  c == ' ' || c == '\t' || c == '\n' || c == '\r' || c == '\x0b' || c == '\x0c'

/-- Python `s.strip()` on a char list. -/
def pyStripChars (cs : List Char) : List Char :=
  ((cs.dropWhile isPySpace).reverse.dropWhile isPySpace).reverse

/-- Python `s.strip()`. -/
def pyStrip (s : String) : String := String.mk (pyStripChars s.data)

/-- Python `text.split("\n")` on a char list. -/
def splitChars : List Char → List (List Char)
  | [] => [[]]
  | c :: rest =>
    let r := splitChars rest
    if c == '\n' then [] :: r
    else
      match r with
      | [] => [[c]]
      | h :: t => (c :: h) :: t

/-- Python `text.find(pat)` as an `Option` (None for -1). -/
def findSubPos (pat : List Char) : List Char → Option Nat
  | [] => if pat.isEmpty then some 0 else none
  | c :: rest =>
    if charListPref pat (c :: rest) then some 0
    else (findSubPos pat rest).map (· + 1)

/-- The slice-then-split preprocessing of `extract_receiving_items`
(lines 43-50): slice at `"#### 접수중"`, falling back to the first bare
`"접수중"`, then split into stripped non-empty lines. -/
def irisLines (text : String) : List String :=
  let cs := text.data
  let sliced :=
    match findSubPos ("#### 접수중".data) cs with
    | some i => cs.drop i
    | none =>
      match findSubPos ("접수중".data) cs with
      | some i => cs.drop i
      | none => cs
  ((splitChars sliced).map pyStripChars).filterMap
    (fun l => if l.isEmpty then none else some (String.mk l))

/-- Does `\s>\s` followed by a non-empty remainder start here?  (Building
block of the `ministry_pattern` fullmatch `.+\s>\s.+`.) -/
def orgSepHere : List Char → Bool
  | w1 :: g :: w2 :: rest =>
    isPySpace w1 && g == '>' && isPySpace w2 && !rest.isEmpty
  | _ => false

/-- Does the separator occur at any position of the list? -/
def orgSepInTail : List Char → Bool
  | [] => false
  | c :: rest => orgSepHere (c :: rest) || orgSepInTail rest

/-- Source: `ministry_pattern.fullmatch(ln)` for `.+\s>\s.+` (line 59): some
whitespace-`>`-whitespace separator with at least one character on each
side (lines contain no newline, so `.` matches every character). -/
def ministryMatch (l : List Char) : Bool :=
  match l with
  | [] => false
  | _ :: t => orgSepInTail t

/-- Remove a literal leading pattern, returning the remainder. -/
def stripPref (pat cs : List Char) : Option (List Char) :=
  match pat, cs with
  | [], rest => some rest
  | _ :: _, [] => none
  | a :: as, b :: bs => if a == b then stripPref as bs else none

/-- Greedy `\s*`. -/
def skipWs (cs : List Char) : List Char := cs.dropWhile isPySpace

/-- Source: `date_pattern` (`공고일자\s*:\s*(\d{4}-\d{2}-\d{2})`, line 60) matched at
the current position; returns the captured date. -/
def matchDateAt (cs : List Char) : Option (List Char) :=
  match stripPref ("공고일자".data) cs with
  | none => none
  | some cs1 =>
    match skipWs cs1 with
    | ':' :: cs2 =>
      match skipWs cs2 with
      | a :: b :: c :: d :: m1 :: e :: f :: m2 :: g :: k :: _ =>
        if a.isDigit && b.isDigit && c.isDigit && d.isDigit && m1 == '-'
            && e.isDigit && f.isDigit && m2 == '-' && g.isDigit && k.isDigit then
          some [a, b, c, d, m1, e, f, m2, g, k]
        else none
      | _ => none
    | _ => none

/-- Source: `date_pattern.search(meta)`: leftmost position where the pattern matches. -/
def searchDateGo : List Char → Option (List Char)
  | [] => none
  | c :: rest =>
    match matchDateAt (c :: rest) with
    | some r => some r
    | none => searchDateGo rest

/-- Source: `status_pattern` (`공고상태\s*:\s*([^\s]+)`, line 61) matched at the
current position; the capture is the maximal non-whitespace run. -/
def matchStatusAt (cs : List Char) : Option (List Char) :=
  match stripPref ("공고상태".data) cs with
  | none => none
  | some cs1 =>
    match skipWs cs1 with
    | ':' :: cs2 =>
      let tok := (skipWs cs2).takeWhile (fun c => !isPySpace c)
      if tok.isEmpty then none else some tok
    | _ => none

/-- Source: `status_pattern.search(meta)`. -/
def searchStatusGo : List Char → Option (List Char)
  | [] => none
  | c :: rest =>
    match matchStatusAt (c :: rest) with
    | some r => some r
    | none => searchStatusGo rest

/-- The bare status labels skipped inside the inner loop (line 79). -/
def irisLabels : List String := ["접수중", "마감", "접수예정"]

/-- The inner `j` loop (lines 73-85): starting right after the organization
line, scan forward; stop at a `공고번호`-prefixed metadata line, skip label
lines, and remember the first other line as the title.  Returns
`(title?, meta?, advance)` where `advance` is the number of lines passed
before stopping (so the final `j` is `i + 1 + advance`). -/
def seekTitleMeta : List String → Option String → Option String × Option String × Nat
  | [], t => (t, none, 0)
  | l :: rest, t =>
    if pyStartsWith "공고번호" l then (t, some l, 0)
    else if irisLabels.contains l then
      let r := seekTitleMeta rest t
      (r.1, r.2.1, r.2.2 + 1)
    else if t.isNone then
      let r := seekTitleMeta rest (some l)
      (r.1, r.2.1, r.2.2 + 1)
    else
      let r := seekTitleMeta rest t
      (r.1, r.2.1, r.2.2 + 1)

/-- One extracted IRIS record (lines 99-105). -/
structure IrisItem where
  org : String
  title : String
  pub_date : String
  status : String
  link : String
deriving DecidableEq, Repr

/-- Source: `IRIS_LIST_URL` (line 9). -/
def IRIS_LIST_URL : String :=
  "https://www.iris.go.kr/contents/retrieveBsnsAncmBtinSituListView.do"

/-- One iteration of the outer `while` loop (lines 63-109): returns the new
cursor and the record emitted, if any.  The cursor update is the source's
`i = j if j > i else i + 1`. -/
def scanStep (lines : List String) (i : Nat) : Nat × Option IrisItem :=
  let ln := lines.getD i ""
  if ministryMatch ln.data then
    let r := seekTitleMeta (lines.drop (i + 1)) none
    let j := i + 1 + r.2.2
    let pub_date := (r.2.1.bind (fun m => searchDateGo m.data)).map String.mk
    let status := (r.2.1.bind (fun m => searchStatusGo m.data)).map String.mk
    let okStatus :=
      match status with
      | none => true
      | some s => strIn "접수중" s
    let titleOk :=
      match r.1 with
      | some t => t ≠ ""
      | none => false
    let item :=
      if titleOk && okStatus then
        some ⟨ln, r.1.getD "", pub_date.getD "", status.getD "", IRIS_LIST_URL⟩
      else none
    (if j > i then j else i + 1, item)
  else (i + 1, none)

/-- The outer `while` loop, fuelled: each iteration consumes one unit of fuel
and advances the cursor by at least one (proved below), so fuel
`lines.length` makes the fuelled loop agree with the unbounded one. -/
def scanGo (lines : List String) (limit : Nat) : Nat → Nat → List IrisItem → List IrisItem
  | 0, _, acc => acc
  | fuel + 1, i, acc =>
    if i < lines.length ∧ acc.length < limit then
      let st := scanStep lines i
      scanGo lines limit fuel st.1 (acc ++ st.2.toList)
    else acc

/-- Source: `extract_receiving_items` (lines 33-111) from the flattened page text. -/
def extract_receiving_items (text : String) (limit : Nat) : List IrisItem :=
  let lines := irisLines text
  scanGo lines limit lines.length 0 []

example :
    extract_receiving_items
      "#### 접수중\nA부 > B원\n2026년 사업 공고\n공고번호 : 1 공고일자 :2026-02-13 공고상태 : 공고접수중"
      30
    = [⟨"A부 > B원", "2026년 사업 공고", "2026-02-13", "공고접수중", IRIS_LIST_URL⟩] := by
  decide

/-- Source: `build_message` entry lines of `iris_alert.py` (lines 119-125),
one per displayed item, numbering starting at `i` (the `dict.get` defaults
never fire: every record built at lines 99-105 carries all five keys). -/
def irisEntryLines : Nat → List IrisItem → List String
  | _, [] => []
  | i, it :: rest =>
    ("\n" ++ toString i ++ ". " ++ it.title ++ "\n   - 기관: " ++ it.org
      ++ "\n   - 공고일자: " ++ it.pub_date ++ "\n   - 링크: " ++ it.link)
      :: irisEntryLines (i + 1) rest

/-- Source: `build_message` of `iris_alert.py` (lines 114-126): a fixed
"nothing found" text for an empty list, else a header with total and shown
counts followed by at most `max_items` numbered entries. -/
def build_message (items : List IrisItem) (max_items : Nat) : String :=
  if items.isEmpty then "📌 [IRIS 접수중 공고] 오늘 신규/접수중 항목을 찾지 못했습니다."
  else
    joinNl (["📌 [IRIS 접수중 공고 요약]",
             "총 " ++ toString items.length ++ "건 (표시 "
               ++ toString (min items.length max_items) ++ "건)"]
            ++ irisEntryLines 1 (items.take max_items))

/-- Source: `iris_alert.main` (lines 129-142) after fetch: extract with limit
40, build one digest (display cap 12) and send it unconditionally - this
pipeline keeps no seen-set; `sendOk 0` tells whether the single
`telegram_send` call returns without raising.  The result is the list of
messages the run delivered. -/
def runIris (sendOk : Nat → Bool) (text : String) : List String :=
  if sendOk 0 then [build_message (extract_receiving_items text 40) 12] else []

/-! ## Helper lemmas -/

/-- Python `isinstance(x, list)`. -/
def Json.isArr : Json → Bool
  | .arr _ => true
  | _ => false

lemma filter_isObj_map_obj (fss : List (List (String × Json))) :
    (fss.map Json.obj).filter Json.isObj = fss.map Json.obj := by
  induction fss with
  | nil => rfl
  | cons h t ih => simp [Json.isObj, ih]

/-! ## Claim C2: classifier priority order -/

/-- C2: the classifier evaluates the five term-sets in the fixed order
export > financing > R&D/commercialization > Jeonbuk > Chungnam; the first
matching term-set determines the single category (`classify_item` agrees with
the spec-ordered first-match rule `classifySpecOrder` on every record); a
record matching none gets no category; and a record containing both an export
term and a financing term classifies as export, never financing. -/
theorem claim2_classifier_priority (it : Item) :
    classify_item it = classifySpecOrder it ∧
    (hasAnyTerm EXPORT_TERMS (classifyText it) = true →
      hasAnyTerm FIN_TERMS (classifyText it) = true →
      classify_item it = some "수출" ∧ classify_item it ≠ some "융자·자금") ∧
    ((∀ r ∈ CATEGORY_RULES, hasAnyTerm r.1 (classifyText it) = false) →
      classify_item it = none) := by
  refine ⟨?_, ?_, ?_⟩
  · cases hexp : hasAnyTerm EXPORT_TERMS (classifyText it) <;>
    cases hfin : hasAnyTerm FIN_TERMS (classifyText it) <;>
    cases hrnd : hasAnyTerm RND_TERMS (classifyText it) <;>
    cases hjb : hasAnyTerm JEONBUK_TERMS (classifyText it) <;>
    cases hcn : hasAnyTerm CHUNGNAM_TERMS (classifyText it) <;>
    simp [classify_item, classifySpecOrder, CATEGORY_RULES, List.find?,
          hexp, hfin, hrnd, hjb, hcn]
  · intro h1 _h2
    simp [classify_item, h1]
  · intro h
    have he := h (EXPORT_TERMS, "수출") (by simp [CATEGORY_RULES])
    have hf := h (FIN_TERMS, "융자·자금") (by simp [CATEGORY_RULES])
    have hr := h (RND_TERMS, "R&D·사업화") (by simp [CATEGORY_RULES])
    have hj := h (JEONBUK_TERMS, "전북") (by simp [CATEGORY_RULES])
    have hc := h (CHUNGNAM_TERMS, "충남·천안") (by simp [CATEGORY_RULES])
    simp only at he hf hr hj hc
    simp [classify_item, he, hf, hr, hj, hc]

/-- Witness for C2 at a record carrying both an export term and a financing
term: it classifies as export. -/
theorem claim2_witness :
    classify_item { title := "수출 융자" } = some "수출" ∧
    classify_item { title := "수출 융자" } ≠ some "융자·자금" :=
  (claim2_classifier_priority { title := "수출 융자" }).2.1 (by decide) (by decide)

/-! ## Claim C4: response-shape normalization -/

/-- C4: the four documented API-response shapes carrying the same logical
record list normalize to the identical array (shapes: top-level array;
`jsonArray` as array; `jsonArray.item` as array; `jsonArray.item` as a single
object, which yields that one record); any other shape (scalar top level,
missing/scalar `jsonArray`, missing/scalar `item`) yields the empty list. -/
theorem claim4_shape_normalization :
    (∀ fss : List (List (String × Json)),
      normalize_items (.arr (fss.map Json.obj)) = fss.map Json.obj ∧
      normalize_items (.obj [("jsonArray", .arr (fss.map Json.obj))]) = fss.map Json.obj ∧
      normalize_items (.obj [("jsonArray", .obj [("item", .arr (fss.map Json.obj))])])
        = fss.map Json.obj) ∧
    (∀ f, normalize_items (.obj [("jsonArray", .obj [("item", .obj f)])]) = [.obj f]) ∧
    normalize_items .null = [] ∧
    (∀ s, normalize_items (.str s) = []) ∧
    (∀ n, normalize_items (.num n) = []) ∧
    (∀ b, normalize_items (.bool b) = []) ∧
    (∀ fs, assocFind fs "jsonArray" = none → normalize_items (.obj fs) = []) ∧
    (∀ fs v, assocFind fs "jsonArray" = some v → v.isArr = false → v.isObj = false →
      normalize_items (.obj fs) = []) ∧
    (∀ fs g, assocFind fs "jsonArray" = some (.obj g) → assocFind g "item" = none →
      normalize_items (.obj fs) = []) ∧
    (∀ fs g v, assocFind fs "jsonArray" = some (.obj g) → assocFind g "item" = some v →
      v.isArr = false → v.isObj = false → normalize_items (.obj fs) = []) := by
  refine ⟨?_, ?_, rfl, fun _ => rfl, fun _ => rfl, fun _ => rfl, ?_, ?_, ?_, ?_⟩
  · intro fss
    refine ⟨?_, ?_, ?_⟩ <;>
      simp [normalize_items, assocFind, filter_isObj_map_obj]
  · intro f
    simp [normalize_items, assocFind]
  · intro fs h
    simp [normalize_items, h]
  · intro fs v h ha ho
    cases v <;> simp_all [normalize_items, Json.isArr, Json.isObj]
  · intro fs g h hi
    simp [normalize_items, h, hi]
  · intro fs g v h hi ha ho
    cases v <;> simp_all [normalize_items, Json.isArr, Json.isObj]

/-- Witness for C4 on a concrete logical list of two records: the four shapes
produce the identical output, and `{}` produces the empty list. -/
theorem claim4_witness :
    normalize_items (.arr [.obj [("seq", .str "1")], .obj [("seq", .str "2")]])
        = [Json.obj [("seq", .str "1")], Json.obj [("seq", .str "2")]] ∧
    normalize_items (.obj [("jsonArray", .arr [.obj [("seq", .str "1")], .obj [("seq", .str "2")]])])
        = [Json.obj [("seq", .str "1")], Json.obj [("seq", .str "2")]] ∧
    normalize_items (.obj [("jsonArray",
        .obj [("item", .arr [.obj [("seq", .str "1")], .obj [("seq", .str "2")]])])])
        = [Json.obj [("seq", .str "1")], Json.obj [("seq", .str "2")]] ∧
    normalize_items (.obj []) = [] := by
  have h := claim4_shape_normalization
  have h4 := h.1 [[("seq", Json.str "1")], [("seq", Json.str "2")]]
  have hempty := h.2.2.2.2.2.2.1 [] (by rfl)
  exact ⟨h4.1, h4.2.1, h4.2.2, hempty⟩

/-! ## Claim C6: identifier stability -/

/-- C6 counterexample: two titles that differ only in whitespace (one space
vs two), with the same link, yield different identifiers under
`kstartup_alert.make_id`, because the sha256 input contains the title
verbatim. -/
theorem claim6_counterexample :
    make_id "a b" "https://k.io" ≠ make_id "a  b" "https://k.io" := by decide

/-- C6 amended: identifier derivation is a pure function of the record's
content, so identical content across runs yields the identical identifier;
the Bizinfo identifier (`seq` / `pblancId` / `link` chain) ignores the title
entirely, so no title change - whitespace or otherwise - can affect it; but
the K-Startup identifier hashes the full title, so titles differing only in
whitespace can yield different identifiers (witnessed at "a b" vs "ab"). -/
theorem claim6_amended :
    (∀ (it : Item) (t : String), seqOf { it with title := t } = seqOf it) ∧
    (∀ t1 t2 l1 l2 : String, t1 = t2 → l1 = l2 → make_id t1 l1 = make_id t2 l2) ∧
    make_id "a b" "L" ≠ make_id "ab" "L" := by
  refine ⟨fun it t => rfl, fun t1 t2 l1 l2 ht hl => by rw [ht, hl], ?_⟩
  decide

/-- Witness for C6's amended statement at concrete inputs: the Bizinfo
identifier of a record is unchanged by a whitespace-perturbed title. -/
theorem claim6_witness :
    seqOf { ({ seq := "77", title := "a b" } : Item) with title := "a  b" }
      = seqOf { seq := "77", title := "a b" } :=
  claim6_amended.1 { seq := "77", title := "a b" } "a  b"

/-! ## Loop invariants of the Bizinfo send loop -/

lemma mem_insertList (x : String) (l : List String) (s : Finset String) :
    x ∈ insertList l s ↔ x ∈ l ∨ x ∈ s := by
  induction l generalizing s with
  | nil => simp [insertList]
  | cons a l ih =>
    simp only [insertList, List.foldl_cons] at ih ⊢
    rw [ih (Insert.insert a s)]
    simp [List.mem_cons, Finset.mem_insert, or_assoc, or_left_comm]

lemma subset_insertList (l : List String) (s : Finset String) (x : String)
    (hx : x ∈ s) : x ∈ insertList l s :=
  (mem_insertList x l s).mpr (Or.inr hx)

lemma card_insertList (l : List String) (s : Finset String)
    (hnd : l.Nodup) (hdis : ∀ x ∈ l, x ∉ s) :
    (insertList l s).card = s.card + l.length := by
  induction l generalizing s with
  | nil => simp [insertList]
  | cons a l ih =>
    simp only [insertList, List.foldl_cons] at ih ⊢
    have ha : a ∉ s := hdis a (List.mem_cons_self a l)
    have hnd' : l.Nodup := hnd.of_cons
    have hdis' : ∀ x ∈ l, x ∉ Insert.insert a s := by
      intro x hxl
      have hxa : x ≠ a := by
        intro hcontra
        exact (List.nodup_cons.1 hnd).1 (hcontra ▸ hxl)
      simp [Finset.mem_insert, hxa, hdis x (List.mem_cons_of_mem a hxl)]
    rw [ih (Insert.insert a s) hnd' hdis', Finset.card_insert_of_not_mem ha]
    simp only [List.length_cons]
    omega

lemma bizLoop_seen_mono (sendOk : Nat → Bool) (top : List (String × Item)) :
    ∀ (cats : List String) (k : Nat) (seen : Finset String) (x : String),
      x ∈ seen → x ∈ (bizLoop sendOk top cats k seen).seenAfter := by
  intro cats
  induction cats with
  | nil => intro k seen x hx; simpa [bizLoop] using hx
  | cons c rest ih =>
    intro k seen x hx
    simp only [bizLoop]
    split
    · exact ih k seen x hx
    · split
      · exact ih (k + 1) (insertList (catSeqs top c) seen) x
          (subset_insertList _ _ _ hx)
      · simpa using hx

/-- Membership in the in-memory seen-set when the send loop finishes: exactly
the initial members plus the identifiers of the successfully sent
categories. -/
lemma bizLoop_mem (sendOk : Nat → Bool) (top : List (String × Item)) :
    ∀ (cats : List String) (k : Nat) (seen : Finset String) (x : String),
      x ∈ (bizLoop sendOk top cats k seen).seenAfter ↔
        x ∈ seen ∨ ∃ c ∈ (bizLoop sendOk top cats k seen).sent, x ∈ catSeqs top c := by
  intro cats
  induction cats with
  | nil => intro k seen x; simp [bizLoop]
  | cons c rest ih =>
    intro k seen x
    simp only [bizLoop]
    split
    · rw [ih k seen x]
    · split
      · rw [ih (k + 1) (insertList (catSeqs top c) seen) x]
        simp only [mem_insertList]
        constructor
        · rintro (⟨hc | hs⟩ | ⟨d, hd, hx⟩)
          · exact Or.inr ⟨c, by simp, hc⟩
          · exact Or.inl hs
          · exact Or.inr ⟨d, by simp [hd], hx⟩
        · rintro (hs | ⟨d, hd, hx⟩)
          · exact Or.inl (Or.inr hs)
          · rcases List.mem_cons.1 hd with rfl | hd'
            · exact Or.inl (Or.inl hx)
            · exact Or.inr ⟨d, hd', hx⟩
      · simp

lemma bizLoop_all_ok (top : List (String × Item)) :
    ∀ (cats : List String) (k : Nat) (seen : Finset String),
      (bizLoop (fun _ => true) top cats k seen).sent
          = cats.filter (fun c => !(catPairs top c).isEmpty) ∧
        (bizLoop (fun _ => true) top cats k seen).saved = true := by
  intro cats
  induction cats with
  | nil => intro k seen; simp [bizLoop]
  | cons c rest ih =>
    intro k seen
    cases hemp : (catPairs top c).isEmpty
    · have h := ih (k + 1) (insertList (catSeqs top c) seen)
      simp [bizLoop, List.filter_cons, hemp, h.1, h.2]
    · simp only [bizLoop, List.filter_cons, hemp]
      simpa using ih k seen

lemma bizLoop_msgs_len (sendOk : Nat → Bool) (top : List (String × Item)) :
    ∀ (cats : List String) (k : Nat) (seen : Finset String),
      (bizLoop sendOk top cats k seen).msgs.length
        = (bizLoop sendOk top cats k seen).sent.length := by
  intro cats
  induction cats with
  | nil => intro k seen; simp [bizLoop]
  | cons c rest ih =>
    intro k seen
    simp only [bizLoop]
    split
    · exact ih k seen
    · split
      · simp [ih (k + 1) (insertList (catSeqs top c) seen)]
      · simp

/-- Membership in the `new_hits` list: the items that have a non-empty,
unseen identifier and pass the relevance filter, paired with that
identifier. -/
lemma mem_computeNewHits (seen : Finset String) (items : List Item)
    (p : String × Item) :
    p ∈ computeNewHits seen items ↔
      p.2 ∈ items ∧ p.1 = seqOf p.2 ∧ seqOf p.2 ≠ "" ∧ seqOf p.2 ∉ seen ∧
        matches_keywords p.2 = true := by
  obtain ⟨p1, p2⟩ := p
  constructor
  · intro hp
    rcases List.mem_filterMap.1 hp with ⟨it, hit, heq⟩
    simp only at heq
    by_cases h1 : seqOf it = ""
    · rw [if_pos h1] at heq; cases heq
    rw [if_neg h1] at heq
    by_cases h2 : seqOf it ∈ seen
    · rw [if_pos h2] at heq; cases heq
    rw [if_neg h2] at heq
    by_cases h3 : matches_keywords it = true
    · rw [if_pos h3] at heq
      cases heq
      exact ⟨hit, rfl, h1, h2, h3⟩
    · rw [if_neg h3] at heq; cases heq
  · rintro ⟨hmem, hfst, hne, hnotin, hmk⟩
    refine List.mem_filterMap.2 ⟨p2, hmem, ?_⟩
    simp only
    rw [if_neg hne, if_neg hnotin, if_pos hmk]
    simp only at hfst
    rw [hfst]

/-- The classifier only ever emits one of the five send-order categories. -/
lemma classify_mem_ORDER (it : Item) (c : String)
    (h : classify_item it = some c) : c ∈ ORDER := by
  simp only [classify_item] at h
  split_ifs at h <;> simp_all [ORDER]

/-- If the mapped list is duplicate-free, the mapping is injective on
members. -/
lemma nodup_map_inj_on {α β : Type} (f : α → β) (l : List α)
    (hnd : (l.map f).Nodup) :
    ∀ a ∈ l, ∀ b ∈ l, f a = f b → a = b := by
  induction l with
  | nil => intro a ha; cases ha
  | cons x xs ih =>
    simp only [List.map_cons, List.nodup_cons] at hnd
    intro a ha b hb hab
    rcases List.mem_cons.1 ha with rfl | ha' <;>
      rcases List.mem_cons.1 hb with rfl | hb'
    · rfl
    · exact absurd (hab ▸ List.mem_map_of_mem f hb') hnd.1
    · exact absurd (hab ▸ List.mem_map_of_mem f ha') hnd.1
    · exact ih hnd.2 a ha' b hb' hab

/-- An identifier in a category's send list comes from a capped candidate
classified into exactly that category. -/
lemma mem_catSeqs (top : List (String × Item)) (c : String) (x : String) :
    x ∈ catSeqs top c ↔ ∃ p ∈ top, classify_item p.2 = some c ∧ p.1 = x := by
  simp only [catSeqs, catPairs, List.mem_map, List.mem_filter]
  constructor
  · rintro ⟨p, ⟨hp, hc⟩, rfl⟩
    exact ⟨p, hp, by simpa using hc, rfl⟩
  · rintro ⟨p, hp, hc, rfl⟩
    exact ⟨p, ⟨hp, by simpa using hc⟩, rfl⟩

lemma kstartupLoop_seen_mono (sendOk : Nat → Bool) :
    ∀ (hits : List (String × KItem)) (k : Nat) (seen : Finset String) (x : String),
      x ∈ seen → x ∈ (kstartupLoop sendOk hits k seen).seenAfter := by
  intro hits
  induction hits with
  | nil => intro k seen x hx; simpa [kstartupLoop] using hx
  | cons p rest ih =>
    intro k seen x hx
    obtain ⟨sid, it⟩ := p
    simp only [kstartupLoop]
    split
    · exact ih (k + 1) (Insert.insert sid seen) x (Finset.mem_insert_of_mem hx)
    · simpa using hx

/-- Seen-set membership at the end of a full run: the loaded identifiers
plus those grouped under the successfully sent categories. -/
lemma runBizinfo_mem (sendOk : Nat → Bool) (seen0 : Finset String)
    (items : List Item) (x : String) :
    x ∈ (runBizinfo sendOk seen0 items).seenAfter ↔
      x ∈ seen0 ∨ ∃ c ∈ (runBizinfo sendOk seen0 items).sent,
        x ∈ catSeqs (bizTop seen0 items) c := by
  unfold runBizinfo
  split
  · simp
  · split
    · simp
    · split
      · simp
      · exact bizLoop_mem sendOk (bizTop seen0 items) ORDER 0 seen0 x

/-! ## Claim C3: only sent identifiers enter the seen-set -/

/-- C3 amended: the in-memory seen-set after a run is exactly the loaded set
plus the identifiers grouped under the successfully sent categories, so only
identifiers of candidates in successfully sent messages are ever added; a
relevance-matched record that no term-set classifies contributes nothing
itself - its identifier can enter the set only when some classified, sent
candidate carries the same identifier (and otherwise stays out, free to be
re-evaluated on a later run). -/
theorem claim3_amended (sendOk : Nat → Bool) (seen0 : Finset String)
    (items : List Item) :
    (∀ x, x ∈ (runBizinfo sendOk seen0 items).seenAfter ↔
      x ∈ seen0 ∨ ∃ c ∈ (runBizinfo sendOk seen0 items).sent,
        x ∈ catSeqs (bizTop seen0 items) c) ∧
    (∀ p ∈ bizTop seen0 items, classify_item p.2 = none →
      (∀ q ∈ bizTop seen0 items, q.1 = p.1 → classify_item q.2 = none) →
      p.1 ∉ seen0 → p.1 ∉ (runBizinfo sendOk seen0 items).seenAfter) := by
  have hmain := runBizinfo_mem sendOk seen0 items
  refine ⟨hmain, ?_⟩
  intro p hp hnone hshare hnot0 hmem
  rcases (hmain p.1).1 hmem with h0 | ⟨c, hc, hx⟩
  · exact hnot0 h0
  · rcases (mem_catSeqs _ _ _).1 hx with ⟨q, hq, hqc, hq1⟩
    have hqnone := hshare q hq hq1
    rw [hqnone] at hqc
    cases hqc

/-- C3 witness: a relevance-matched record (keyword only in `author`) with an
unshared identifier is not recorded as seen. -/
theorem claim3_witness :
    "u" ∉ (runBizinfo (fun _ => true) ∅ [{ author := "전북", seq := "u" }]).seenAfter :=
  (claim3_amended (fun _ => true) ∅ [{ author := "전북", seq := "u" }]).2
    ("u", { author := "전북", seq := "u" })
    (by decide) (by decide) (by decide) (by decide)

/-- Relevance-matched but unclassified record whose identifier is shared with
a classified record (its only keyword sits in `author`, which the classifier's
text blob omits). -/
def itemNoCat : Item := { author := "전북", seq := "s" }

/-- Classified (export) record carrying the same identifier `"s"`. -/
def itemExportS : Item := { title := "수출", seq := "s" }

/-- C3 counterexample: `itemNoCat` passes the relevance filter and matches no
term-set, yet its identifier `"s"` IS in the seen-set at the end of the run,
because the classified record `itemExportS` shares that identifier and its
category message was sent.  The claim "its identifier is never added to the
seen-set during that run" is false as stated. -/
theorem claim3_counterexample :
    matches_keywords itemNoCat = true ∧ classify_item itemNoCat = none ∧
    seqOf itemNoCat = "s" ∧
    ("s", itemNoCat) ∈ bizTop ∅ [itemNoCat, itemExportS] ∧
    "s" ∈ (runBizinfo (fun _ => true) ∅ [itemNoCat, itemExportS]).seenAfter ∧
    (runBizinfo (fun _ => true) ∅ [itemNoCat, itemExportS]).saved = true := by
  decide

/-! ## Claim C9: the seen-set only grows -/

/-- C9: no operation of either seen-set pipeline removes an identifier: every
identifier loaded at run start is still in the in-memory set when the run
ends, and in the persisted set (the file is either rewritten with a superset
or left untouched), for the Bizinfo and the K-Startup orchestrators alike,
whatever the send outcomes. -/
theorem claim9_seen_monotone (sendOk : Nat → Bool) (seen0 : Finset String)
    (x : String) :
    (∀ items : List Item, x ∈ seen0 →
      x ∈ (runBizinfo sendOk seen0 items).seenAfter ∧
      x ∈ persistedAfter seen0 (runBizinfo sendOk seen0 items)) ∧
    (∀ kitems : List KItem, x ∈ seen0 →
      x ∈ (runKstartup sendOk seen0 kitems).seenAfter ∧
      x ∈ persistedAfter seen0 (runKstartup sendOk seen0 kitems)) := by
  constructor
  · intro items hx
    have hafter : x ∈ (runBizinfo sendOk seen0 items).seenAfter := by
      unfold runBizinfo
      split
      · simpa using hx
      · split
        · simpa using hx
        · split
          · simpa using hx
          · exact bizLoop_seen_mono sendOk (bizTop seen0 items) ORDER 0 seen0 x hx
    refine ⟨hafter, ?_⟩
    unfold persistedAfter
    split
    · exact hafter
    · exact hx
  · intro kitems hx
    have hafter : x ∈ (runKstartup sendOk seen0 kitems).seenAfter := by
      unfold runKstartup
      split
      · simpa using hx
      · exact kstartupLoop_seen_mono sendOk _ 0 seen0 x hx
    refine ⟨hafter, ?_⟩
    unfold persistedAfter
    split
    · exact hafter
    · exact hx

/-- C9 witness at a concrete loaded set and empty fetches. -/
theorem claim9_witness :
    "w" ∈ (runBizinfo (fun _ => true) {"w"} []).seenAfter ∧
    "w" ∈ persistedAfter {"w"} (runBizinfo (fun _ => true) {"w"} []) :=
  (claim9_seen_monotone (fun _ => true) {"w"} "w").1 [] (by decide)

/-! ## Claim C5: send failure and persistence -/

lemma isEmpty_false_of_mem {α : Type} {x : α} {l : List α} (h : x ∈ l) :
    l.isEmpty = false := by
  cases l with
  | nil => cases h
  | cons a t => rfl

/-- When the first `m` sends succeed and the `(m+1)`-th raises, the loop sends
exactly the first `m` non-empty categories and never reaches `save_seen`. -/
lemma bizLoop_abort (sendOk : Nat → Bool) (top : List (String × Item)) :
    ∀ (cats : List String) (k0 m : Nat) (seen : Finset String),
      (∀ j, j < m → sendOk (k0 + j) = true) →
      sendOk (k0 + m) = false →
      m < (cats.filter (fun c => !(catPairs top c).isEmpty)).length →
      (bizLoop sendOk top cats k0 seen).sent
          = (cats.filter (fun c => !(catPairs top c).isEmpty)).take m ∧
        (bizLoop sendOk top cats k0 seen).saved = false := by
  intro cats
  induction cats with
  | nil => intro k0 m seen _ _ h3; simp at h3
  | cons c rest ih =>
    intro k0 m seen h1 h2 h3
    cases hemp : (catPairs top c).isEmpty
    · cases m with
      | zero =>
        have hk : sendOk k0 = false := by simpa using h2
        simp [bizLoop, hemp, hk, List.filter_cons]
      | succ mp =>
        have hk : sendOk k0 = true := by simpa using h1 0 (Nat.succ_pos mp)
        have hpre : ∀ j, j < mp → sendOk (k0 + 1 + j) = true := by
          intro j hj
          have hr := h1 (j + 1) (by omega)
          rw [show k0 + 1 + j = k0 + (j + 1) from by omega]
          exact hr
        have hfail : sendOk (k0 + 1 + mp) = false := by
          rw [show k0 + 1 + mp = k0 + (mp + 1) from by omega]
          exact h2
        have hlen : mp < (rest.filter (fun d => !(catPairs top d).isEmpty)).length := by
          rw [List.filter_cons, if_pos (by simp [hemp])] at h3
          simpa using Nat.lt_of_succ_lt_succ h3
        have ihr := ih (k0 + 1) mp (insertList (catSeqs top c) seen) hpre hfail hlen
        simp [bizLoop, hemp, hk, List.filter_cons, ihr.1, ihr.2]
    · have hfl : (c :: rest).filter (fun d => !(catPairs top d).isEmpty)
          = rest.filter (fun d => !(catPairs top d).isEmpty) := by
        simp [List.filter_cons, hemp]
      rw [hfl] at h3 ⊢
      simp only [bizLoop, hemp, if_pos rfl]
      exact ih k0 m seen h1 h2 h3

/-- The categories of `ORDER` that received at least one capped candidate
(the message batches `main` will try to send, in order). -/
def nonemptyCats (seen0 : Finset String) (items : List Item) : List String :=
  ORDER.filter (fun c => !(catPairs (bizTop seen0 items) c).isEmpty)

/-- When some category has a candidate, `main` reaches the send loop. -/
lemma runBizinfo_main (sendOk : Nat → Bool) (seen0 : Finset String)
    (items : List Item) (h : nonemptyCats seen0 items ≠ []) :
    runBizinfo sendOk seen0 items
      = bizLoop sendOk (bizTop seen0 items) ORDER 0 seen0 := by
  obtain ⟨c, hc⟩ : ∃ c, c ∈ nonemptyCats seen0 items := by
    cases hne : nonemptyCats seen0 items with
    | nil => exact absurd hne h
    | cons a l => exact ⟨a, hne ▸ List.mem_cons_self a l⟩
  have hcp : (catPairs (bizTop seen0 items) c).isEmpty = false := by
    have hmem := List.of_mem_filter (p := fun d => !(catPairs (bizTop seen0 items) d).isEmpty) hc
    simpa using hmem
  obtain ⟨p, hp⟩ : ∃ p, p ∈ catPairs (bizTop seen0 items) c := by
    cases hl : catPairs (bizTop seen0 items) c with
    | nil => rw [hl] at hcp; cases hcp
    | cons a l => exact ⟨a, hl ▸ List.mem_cons_self a l⟩
  have hptop : p ∈ bizTop seen0 items := (List.mem_filter.1 hp).1
  have hpc : classify_item p.2 = some c := by
    have := (List.mem_filter.1 hp).2
    simpa using this
  have hpnh : p ∈ computeNewHits seen0 items := List.take_subset 60 _ hptop
  have hitems : items.isEmpty = false :=
    isEmpty_false_of_mem ((mem_computeNewHits seen0 items p).1 hpnh).1
  have hnh : (computeNewHits seen0 items).isEmpty = false := isEmpty_false_of_mem hpnh
  have hall : ((bizTop seen0 items).all (fun q => (classify_item q.2).isNone)) = false := by
    cases hAll : (bizTop seen0 items).all (fun q => (classify_item q.2).isNone)
    · rfl
    · have := List.all_eq_true.1 hAll p hptop
      rw [hpc] at this
      cases this
  unfold runBizinfo
  simp [hitems, hnh, hall]

/-- C5 amended: a raising send aborts the run before persistence.  If the
first `k` sends succeed and the `(k+1)`-th raises (with a `(k+1)`-th batch to
send), then exactly the first `k` category messages were delivered, the
remaining batches are never sent, and `save_seen` is never reached - nothing
at all is persisted this run, not even the identifiers of the `k` delivered
messages (they will be re-sent by a later run: at-least-once delivery).
Persistence happens only in runs whose sends all succeed. -/
theorem claim5_amended (sendOk : Nat → Bool) (seen0 : Finset String)
    (items : List Item) (k : Nat)
    (hpre : ∀ j, j < k → sendOk j = true)
    (hfail : sendOk k = false)
    (hk : k < (nonemptyCats seen0 items).length) :
    (runBizinfo sendOk seen0 items).sent = (nonemptyCats seen0 items).take k ∧
    (runBizinfo sendOk seen0 items).saved = false ∧
    (runBizinfo sendOk seen0 items).msgs.length = k ∧
    persistedAfter seen0 (runBizinfo sendOk seen0 items) = seen0 := by
  have hne : nonemptyCats seen0 items ≠ [] := by
    intro h0
    rw [h0] at hk
    simp at hk
  rw [runBizinfo_main sendOk seen0 items hne]
  have habort := bizLoop_abort sendOk (bizTop seen0 items) ORDER 0 k seen0
    (by simpa using hpre) (by simpa using hfail) (by simpa [nonemptyCats] using hk)
  refine ⟨by simpa [nonemptyCats] using habort.1, habort.2, ?_, ?_⟩
  · rw [bizLoop_msgs_len, habort.1, List.length_take]
    have hk' : k < (List.filter (fun c => !(catPairs (bizTop seen0 items) c).isEmpty) ORDER).length := by
      simpa [nonemptyCats] using hk
    omega
  · unfold persistedAfter
    rw [habort.2]
    simp

/-- Export-classified record used in the C5 scenario. -/
def itemExportA : Item := { title := "수출", seq := "a" }

/-- Financing-classified record used in the C5 scenario. -/
def itemFin : Item := { title := "융자", seq := "b" }

/-- C5 counterexample: with two category batches and a transport that raises
on the second send, the first message IS successfully sent, yet `save_seen`
is never reached: nothing is persisted.  The claim's "the seen-set is
persisted as the final step even if a later send in the same run fails" is
false as stated. -/
theorem claim5_counterexample :
    (runBizinfo (fun k => k == 0) ∅ [itemExportA, itemFin]).sent = ["수출"] ∧
    (runBizinfo (fun k => k == 0) ∅ [itemExportA, itemFin]).msgs ≠ [] ∧
    (runBizinfo (fun k => k == 0) ∅ [itemExportA, itemFin]).saved = false ∧
    "a" ∈ (runBizinfo (fun k => k == 0) ∅ [itemExportA, itemFin]).seenAfter ∧
    persistedAfter ∅ (runBizinfo (fun k => k == 0) ∅ [itemExportA, itemFin]) = ∅ := by
  decide

/-- C5 witness: the amended statement applied to the concrete two-batch
scenario with the second send raising. -/
theorem claim5_witness :
    (runBizinfo (fun k => k == 0) ∅ [itemExportA, itemFin]).sent
        = (nonemptyCats ∅ [itemExportA, itemFin]).take 1 ∧
    (runBizinfo (fun k => k == 0) ∅ [itemExportA, itemFin]).saved = false ∧
    (runBizinfo (fun k => k == 0) ∅ [itemExportA, itemFin]).msgs.length = 1 ∧
    persistedAfter ∅ (runBizinfo (fun k => k == 0) ∅ [itemExportA, itemFin]) = ∅ :=
  claim5_amended (fun k => k == 0) ∅ [itemExportA, itemFin] 1
    (by intro j hj; simp [Nat.lt_one_iff.1 hj])
    (by rfl) (by decide)

/-! ## Claim C7: per-run cap and seen-set growth -/

lemma catSeqs_nodup (top : List (String × Item))
    (hnd : (top.map Prod.fst).Nodup) (c : String) : (catSeqs top c).Nodup := by
  have hsub : List.Sublist (catSeqs top c) (top.map Prod.fst) :=
    (List.filter_sublist top).map Prod.fst
  exact List.Nodup.sublist hsub hnd

lemma catSeqs_disjoint (top : List (String × Item))
    (hnd : (top.map Prod.fst).Nodup) :
    ∀ c1 c2, c1 ≠ c2 → ∀ x, x ∈ catSeqs top c1 → x ∈ catSeqs top c2 → False := by
  intro c1 c2 hne x h1 h2
  rcases (mem_catSeqs top c1 x).1 h1 with ⟨p, hp, hpc, hpx⟩
  rcases (mem_catSeqs top c2 x).1 h2 with ⟨q, hq, hqc, hqx⟩
  have hpq : p = q :=
    nodup_map_inj_on Prod.fst top hnd p hp q hq (hpx.trans hqx.symm)
  rw [hpq, hqc] at hpc
  exact hne (Option.some.inj hpc).symm

lemma catSeqs_not_seen (seen0 : Finset String) (items : List Item) :
    ∀ c x, x ∈ catSeqs (bizTop seen0 items) c → x ∉ seen0 := by
  intro c x hx
  rcases (mem_catSeqs _ _ _).1 hx with ⟨p, hp, _, hpx⟩
  have hpnh : p ∈ computeNewHits seen0 items := List.take_subset 60 _ hp
  have hchar := (mem_computeNewHits seen0 items p).1 hpnh
  rw [← hpx, hchar.2.1]
  exact hchar.2.2.2.1

/-- Seen-set cardinality after the send loop: the initial cardinality plus the
total batch size of the sent categories, provided the candidate identifiers
are duplicate-free and initially unseen. -/
lemma bizLoop_card (sendOk : Nat → Bool) (top : List (String × Item)) :
    ∀ (cats : List String) (k : Nat) (seen : Finset String),
      cats.Nodup →
      (∀ c, (catSeqs top c).Nodup) →
      (∀ c1 c2, c1 ≠ c2 → ∀ x, x ∈ catSeqs top c1 → x ∈ catSeqs top c2 → False) →
      (∀ c ∈ cats, ∀ x ∈ catSeqs top c, x ∉ seen) →
      (bizLoop sendOk top cats k seen).seenAfter.card
        = seen.card + ((bizLoop sendOk top cats k seen).sent.map
            (fun c => (catSeqs top c).length)).sum := by
  intro cats
  induction cats with
  | nil => intro k seen _ _ _ _; simp [bizLoop]
  | cons c rest ih =>
    intro k seen hnd hcnd hdisj hs
    have hndr : rest.Nodup := hnd.of_cons
    cases hemp : (catPairs top c).isEmpty
    · cases hsk : sendOk k
      · simp [bizLoop, hemp, hsk]
      · have hcard := card_insertList (catSeqs top c) seen (hcnd c)
          (fun x hx => hs c (List.mem_cons_self c rest) x hx)
        have hs' : ∀ d ∈ rest, ∀ x ∈ catSeqs top d,
            x ∉ insertList (catSeqs top c) seen := by
          intro d hd x hx
          rw [mem_insertList]
          rintro (hxc | hxs)
          · exact hdisj d c (fun he => (List.nodup_cons.1 hnd).1 (he ▸ hd)) x hx hxc
          · exact hs d (List.mem_cons_of_mem _ hd) x hx hxs
        have ihr := ih (k + 1) (insertList (catSeqs top c) seen) hndr hcnd hdisj hs'
        simp only [bizLoop, hemp, Bool.false_eq_true, if_false, hsk, if_true]
        simp only [List.map_cons, List.sum_cons]
        rw [ihr, hcard]
        omega
    · have hs' : ∀ d ∈ rest, ∀ x ∈ catSeqs top d, x ∉ seen :=
        fun d hd => hs d (List.mem_cons_of_mem _ hd)
      simp only [bizLoop, hemp, if_pos rfl]
      exact ih k seen hndr hcnd hdisj hs'

/-- C7 amended: at most 60 new relevance-matched candidates are ever
considered for classification and notification (unconditionally, for every
payload, loaded set and send outcome); and when the capped candidates carry
pairwise distinct identifiers, the in-memory seen-set grows by exactly the
total number of candidates in the successfully sent category messages (the
growth reaches the persisted file only when every send succeeded; duplicate
identifiers would collapse in the set). -/
theorem claim7_amended (sendOk : Nat → Bool) (seen0 : Finset String)
    (items : List Item) :
    (bizTop seen0 items).length ≤ 60 ∧
    (((bizTop seen0 items).map Prod.fst).Nodup →
      (runBizinfo sendOk seen0 items).seenAfter.card
        = seen0.card + ((runBizinfo sendOk seen0 items).sent.map
            (fun c => (catSeqs (bizTop seen0 items) c).length)).sum) := by
  constructor
  · unfold bizTop
    rw [List.length_take]
    exact min_le_left _ _
  · intro hnd
    unfold runBizinfo
    split
    · simp
    · split
      · simp
      · split
        · simp
        · exact bizLoop_card sendOk (bizTop seen0 items) ORDER 0 seen0
            (by decide) (catSeqs_nodup _ hnd) (catSeqs_disjoint _ hnd)
            (fun c _ x hx => catSeqs_not_seen seen0 items c x hx)

/-- A second export-classified record sharing identifier `"s"` with
`itemExportS`. -/
def itemDupExport : Item := { title := "수출지원", seq := "s" }

/-- C7 counterexample: two export candidates share the identifier `"s"`; the
sent digest carries 2 candidates but the seen-set (a set!) grows by only 1,
so "seen-set growth equals exactly the number of candidates successfully
sent" is false as stated. -/
theorem claim7_counterexample :
    (runBizinfo (fun _ => true) ∅ [itemExportS, itemDupExport]).sent = ["수출"] ∧
    ((runBizinfo (fun _ => true) ∅ [itemExportS, itemDupExport]).sent.map
        (fun c => (catSeqs (bizTop ∅ [itemExportS, itemDupExport]) c).length)).sum = 2 ∧
    (runBizinfo (fun _ => true) ∅ [itemExportS, itemDupExport]).seenAfter.card = 1 ∧
    (runBizinfo (fun _ => true) ∅ [itemExportS, itemDupExport]).saved = true := by
  decide

/-- C7 witness: the amended statement applied to two distinct-identifier
candidates (the unconditional cap conjunct, and the growth equality with the
duplicate-freedom hypothesis discharged by evaluation). -/
theorem claim7_witness :
    (bizTop ∅ [itemExportA, itemFin]).length ≤ 60 ∧
    (runBizinfo (fun _ => true) ∅ [itemExportA, itemFin]).seenAfter.card
      = (∅ : Finset String).card
        + ((runBizinfo (fun _ => true) ∅ [itemExportA, itemFin]).sent.map
            (fun c => (catSeqs (bizTop ∅ [itemExportA, itemFin]) c).length)).sum :=
  ⟨(claim7_amended (fun _ => true) ∅ [itemExportA, itemFin]).1,
   (claim7_amended (fun _ => true) ∅ [itemExportA, itemFin]).2 (by decide)⟩

/-! ## Claim C10: digest display cap vs seen-marking -/

/-- C10 amended: for a successfully sent category, (i) the digest text
depends only on the total count and the first 10 candidates - items beyond
the display cap leave the message unchanged; (ii) the identifiers of ALL the
category's candidates, displayed or not, are added to the in-memory seen-set;
(iii) provided the run persists (no later send in the same run raised), every
such identifier is excluded from the candidate list of any later run started
from the persisted state (or any superset - the seen-set only grows), so the
undisplayed candidates are never notified again. -/
theorem claim10_amended (sendOk : Nat → Bool) (seen0 : Finset String)
    (items : List Item) (cat : String)
    (hsent : cat ∈ (runBizinfo sendOk seen0 items).sent) :
    (∀ its1 its2 : List Item, its1.length = its2.length →
      its1.take 10 = its2.take 10 →
      build_category_message cat its1 10 = build_category_message cat its2 10) ∧
    (∀ sid ∈ catSeqs (bizTop seen0 items) cat,
      sid ∈ (runBizinfo sendOk seen0 items).seenAfter) ∧
    ((runBizinfo sendOk seen0 items).saved = true →
      ∀ sid ∈ catSeqs (bizTop seen0 items) cat,
      ∀ (seenL : Finset String) (items2 : List Item),
        persistedAfter seen0 (runBizinfo sendOk seen0 items) ⊆ seenL →
        sid ∉ (computeNewHits seenL items2).map Prod.fst) := by
  have hmem : ∀ sid ∈ catSeqs (bizTop seen0 items) cat,
      sid ∈ (runBizinfo sendOk seen0 items).seenAfter := by
    intro sid hsid
    exact (runBizinfo_mem sendOk seen0 items sid).2 (Or.inr ⟨cat, hsent, hsid⟩)
  refine ⟨?_, hmem, ?_⟩
  · intro its1 its2 hlen htake
    unfold build_category_message
    rw [hlen, htake]
  · intro hsaved sid hsid seenL items2 hsub hbad
    rcases List.mem_map.1 hbad with ⟨p, hp, hpx⟩
    have hchar := (mem_computeNewHits seenL items2 p).1 hp
    have hsidL : sid ∈ seenL := by
      apply hsub
      unfold persistedAfter
      rw [hsaved]
      simpa using hmem sid hsid
    rw [← hpx, hchar.2.1] at hsidL
    exact hchar.2.2.2.1 hsidL

/-- Eleven export candidates (identifiers "0".."10") plus one financing
candidate: the export digest displays only 10 of its 11 candidates. -/
def demo12 : List Item :=
  (List.range 11).map (fun i => { title := "수출", seq := toString i }) ++
    [{ title := "융자", seq := "f" }]

/-- C10 counterexample: the export category holds 11 candidates, so one
(identifier "10") is not rendered; all 11 identifiers do enter the in-memory
seen-set once the export message is sent - but the financing send raises, the
run is not persisted, and on the next run the undisplayed candidate "10" is
again part of a successfully sent category message.  "Never notified in any
later run" is false as stated. -/
theorem claim10_counterexample :
    (runBizinfo (fun k => k == 0) ∅ demo12).sent = ["수출"] ∧
    (runBizinfo (fun k => k == 0) ∅ demo12).saved = false ∧
    (catItems (bizTop ∅ demo12) "수출").length = 11 ∧
    "10" ∈ catSeqs (bizTop ∅ demo12) "수출" ∧
    "10" ∈ (runBizinfo (fun k => k == 0) ∅ demo12).seenAfter ∧
    "수출" ∈ (runBizinfo (fun _ => true)
        (persistedAfter ∅ (runBizinfo (fun k => k == 0) ∅ demo12)) demo12).sent ∧
    "10" ∈ catSeqs
        (bizTop (persistedAfter ∅ (runBizinfo (fun k => k == 0) ∅ demo12)) demo12)
        "수출" := by
  decide

/-- C10 witness: the amended statement applied to a concrete sent category. -/
theorem claim10_witness :
    "a" ∈ (runBizinfo (fun _ => true) ∅ [itemExportA, itemFin]).seenAfter :=
  (claim10_amended (fun _ => true) ∅ [itemExportA, itemFin] "수출"
    (by decide)).2.1 "a" (by decide)

/-! ## Claim C1: idempotency of a repeated run -/

lemma mem_kstartupNewHits (seen : Finset String) (items : List KItem)
    (p : String × KItem) :
    p ∈ kstartupNewHits seen items ↔
      p.2 ∈ items ∧ p.1 = make_id p.2.title p.2.link ∧ p.1 ∉ seen := by
  obtain ⟨p1, p2⟩ := p
  constructor
  · intro hp
    rcases List.mem_filterMap.1 hp with ⟨it, hit, heq⟩
    simp only at heq
    by_cases h1 : make_id it.title it.link ∈ seen
    · rw [if_pos h1] at heq
      cases heq
    · rw [if_neg h1] at heq
      cases heq
      exact ⟨hit, rfl, h1⟩
  · rintro ⟨hmem, hid, hnot⟩
    simp only at hmem hid hnot
    refine List.mem_filterMap.2 ⟨p2, hmem, ?_⟩
    simp only
    rw [hid] at hnot
    rw [if_neg hnot, hid]

/-- With every send succeeding, the K-Startup per-item loop completes
(reaching `save_seen`) and marks every candidate identifier as seen. -/
lemma kstartupLoop_all_ok :
    ∀ (hits : List (String × KItem)) (k : Nat) (seen : Finset String),
      (kstartupLoop (fun _ => true) hits k seen).saved = true ∧
      ∀ p ∈ hits, p.1 ∈ (kstartupLoop (fun _ => true) hits k seen).seenAfter := by
  intro hits
  induction hits with
  | nil =>
    intro k seen
    refine ⟨by simp [kstartupLoop], ?_⟩
    intro p hp
    cases hp
  | cons q rest ih =>
    intro k seen
    obtain ⟨sid, it⟩ := q
    have hstep : kstartupLoop (fun _ => true) ((sid, it) :: rest) k seen
        = ⟨sid :: (kstartupLoop (fun _ => true) rest (k + 1) (Insert.insert sid seen)).sent,
           format_message it
             :: (kstartupLoop (fun _ => true) rest (k + 1) (Insert.insert sid seen)).msgs,
           (kstartupLoop (fun _ => true) rest (k + 1) (Insert.insert sid seen)).seenAfter,
           (kstartupLoop (fun _ => true) rest (k + 1) (Insert.insert sid seen)).saved⟩ := by
      simp [kstartupLoop]
    rw [hstep]
    refine ⟨(ih (k + 1) (Insert.insert sid seen)).1, ?_⟩
    intro p hp
    rcases List.mem_cons.1 hp with rfl | hp2
    · exact kstartupLoop_seen_mono (fun _ => true) rest (k + 1) (Insert.insert sid seen)
        sid (Finset.mem_insert_self sid seen)
    · exact (ih (k + 1) (Insert.insert sid seen)).2 p hp2

/-- Under-cap idempotency of the Bizinfo pipeline: with at most 60 new
relevance-matched candidates and all sends succeeding, a second run over the
persisted state sends nothing - every candidate of a sent category is now
seen, and the re-surfacing unclassified candidates still classify to no
category, so the second run exits before the send loop. -/
lemma bizinfo_secondRun_empty (items : List Item)
    (hcap : (computeNewHits ∅ items).length ≤ 60) :
    (runBizinfo (fun _ => true)
        (persistedAfter ∅ (runBizinfo (fun _ => true) ∅ items)) items).msgs = [] ∧
    (runBizinfo (fun _ => true)
        (persistedAfter ∅ (runBizinfo (fun _ => true) ∅ items)) items).sent = [] := by
  by_cases h1 : items.isEmpty = true
  · have hr1 : runBizinfo (fun _ => true) ∅ items = ⟨[], [], ∅, false⟩ := by
      unfold runBizinfo
      rw [if_pos h1]
    rw [hr1]
    have hpers : persistedAfter ∅ (⟨[], [], ∅, false⟩ : RunSt) = ∅ := by
      simp [persistedAfter]
    rw [hpers, hr1]
    exact ⟨rfl, rfl⟩
  by_cases h2 : (computeNewHits ∅ items).isEmpty = true
  · have hr1 : runBizinfo (fun _ => true) ∅ items = ⟨[], [], ∅, false⟩ := by
      unfold runBizinfo
      rw [if_neg h1, if_pos h2]
    rw [hr1]
    have hpers : persistedAfter ∅ (⟨[], [], ∅, false⟩ : RunSt) = ∅ := by
      simp [persistedAfter]
    rw [hpers, hr1]
    exact ⟨rfl, rfl⟩
  by_cases h3 : ((bizTop ∅ items).all (fun p => (classify_item p.2).isNone)) = true
  · have hr1 : runBizinfo (fun _ => true) ∅ items = ⟨[], [], ∅, false⟩ := by
      unfold runBizinfo
      rw [if_neg h1, if_neg h2, if_pos h3]
    rw [hr1]
    have hpers : persistedAfter ∅ (⟨[], [], ∅, false⟩ : RunSt) = ∅ := by
      simp [persistedAfter]
    rw [hpers, hr1]
    exact ⟨rfl, rfl⟩
  · have htop : bizTop ∅ items = computeNewHits ∅ items := by
      unfold bizTop
      exact List.take_of_length_le hcap
    have hr1 : runBizinfo (fun _ => true) ∅ items
        = bizLoop (fun _ => true) (bizTop ∅ items) ORDER 0 ∅ := by
      unfold runBizinfo
      rw [if_neg h1, if_neg h2, if_neg h3]
    have hsaved : (runBizinfo (fun _ => true) ∅ items).saved = true := by
      rw [hr1]
      exact (bizLoop_all_ok (bizTop ∅ items) ORDER 0 ∅).2
    have hsent1 : (runBizinfo (fun _ => true) ∅ items).sent
        = ORDER.filter (fun c => !(catPairs (bizTop ∅ items) c).isEmpty) := by
      rw [hr1]
      exact (bizLoop_all_ok (bizTop ∅ items) ORDER 0 ∅).1
    have hseen1 : persistedAfter ∅ (runBizinfo (fun _ => true) ∅ items)
        = (runBizinfo (fun _ => true) ∅ items).seenAfter := by
      unfold persistedAfter
      rw [hsaved]
      simp
    rw [hseen1]
    have hnone : ∀ p ∈ computeNewHits
        ((runBizinfo (fun _ => true) ∅ items).seenAfter) items,
        classify_item p.2 = none := by
      intro p hp
      by_contra hcl
      obtain ⟨c, hc⟩ : ∃ c, classify_item p.2 = some c := by
        cases hcc : classify_item p.2 with
        | none => exact absurd hcc hcl
        | some c => exact ⟨c, rfl⟩
      have hchar2 := (mem_computeNewHits _ items p).1 hp
      have hp1 : p ∈ computeNewHits ∅ items := by
        rw [mem_computeNewHits]
        exact ⟨hchar2.1, hchar2.2.1, hchar2.2.2.1, by simp, hchar2.2.2.2.2⟩
      have hptop : p ∈ bizTop ∅ items := by
        rw [htop]
        exact hp1
      have hcs : p.1 ∈ catSeqs (bizTop ∅ items) c :=
        (mem_catSeqs _ _ _).2 ⟨p, hptop, hc, rfl⟩
      have hpcp : p ∈ catPairs (bizTop ∅ items) c :=
        List.mem_filter.2 ⟨hptop, by simp [hc]⟩
      have hcsent : c ∈ (runBizinfo (fun _ => true) ∅ items).sent := by
        rw [hsent1]
        refine List.mem_filter.2 ⟨classify_mem_ORDER p.2 c hc, ?_⟩
        simp [isEmpty_false_of_mem hpcp]
      have hmem1 : p.1 ∈ (runBizinfo (fun _ => true) ∅ items).seenAfter :=
        (runBizinfo_mem _ _ _ _).2 (Or.inr ⟨c, hcsent, hcs⟩)
      rw [hchar2.2.1] at hmem1
      exact hchar2.2.2.2.1 hmem1
    by_cases hnh2 : (computeNewHits
        ((runBizinfo (fun _ => true) ∅ items).seenAfter) items).isEmpty = true
    · have hr2 : ∀ S : Finset String, (computeNewHits S items).isEmpty = true →
          runBizinfo (fun _ => true) S items = ⟨[], [], S, false⟩ := by
        intro S hS
        unfold runBizinfo
        rw [if_neg h1, if_pos hS]
      rw [hr2 _ hnh2]
      exact ⟨rfl, rfl⟩
    · have hall2 : ((bizTop ((runBizinfo (fun _ => true) ∅ items).seenAfter) items).all
          (fun p => (classify_item p.2).isNone)) = true := by
        apply List.all_eq_true.2
        intro p hp
        have hp' : p ∈ computeNewHits
            ((runBizinfo (fun _ => true) ∅ items).seenAfter) items :=
          List.take_subset 60 _ hp
        simp [hnone p hp']
      have hr2 : ∀ S : Finset String, ¬(computeNewHits S items).isEmpty = true →
          ((bizTop S items).all (fun p => (classify_item p.2).isNone)) = true →
          runBizinfo (fun _ => true) S items = ⟨[], [], S, false⟩ := by
        intro S hS hA
        unfold runBizinfo
        rw [if_neg h1, if_neg hS, if_pos hA]
      rw [hr2 _ hnh2 hall2]
      exact ⟨rfl, rfl⟩

/-- Under-cap idempotency of the K-Startup pipeline: with at most 30 new
(unseen) candidates and all sends succeeding, every candidate identifier is
persisted, so the second run finds no new hits and exits before sending. -/
lemma kstartup_secondRun_empty (kitems : List KItem)
    (hcap : (kstartupNewHits ∅ kitems).length ≤ 30) :
    (runKstartup (fun _ => true)
        (persistedAfter ∅ (runKstartup (fun _ => true) ∅ kitems)) kitems).msgs = [] ∧
    (runKstartup (fun _ => true)
        (persistedAfter ∅ (runKstartup (fun _ => true) ∅ kitems)) kitems).sent = [] := by
  by_cases hnil : (kstartupNewHits ∅ kitems).isEmpty = true
  · have hr1 : runKstartup (fun _ => true) ∅ kitems = ⟨[], [], ∅, false⟩ := by
      unfold runKstartup
      rw [if_pos hnil]
    rw [hr1]
    have hpers : persistedAfter ∅ (⟨[], [], ∅, false⟩ : RunSt) = ∅ := by
      simp [persistedAfter]
    rw [hpers, hr1]
    exact ⟨rfl, rfl⟩
  · have htake : (kstartupNewHits ∅ kitems).take 30 = kstartupNewHits ∅ kitems :=
      List.take_of_length_le hcap
    have hr1 : runKstartup (fun _ => true) ∅ kitems
        = kstartupLoop (fun _ => true) (kstartupNewHits ∅ kitems) 0 ∅ := by
      unfold runKstartup
      rw [if_neg hnil, htake]
    have hsaved : (runKstartup (fun _ => true) ∅ kitems).saved = true := by
      rw [hr1]
      exact (kstartupLoop_all_ok (kstartupNewHits ∅ kitems) 0 ∅).1
    have hseen1 : persistedAfter ∅ (runKstartup (fun _ => true) ∅ kitems)
        = (runKstartup (fun _ => true) ∅ kitems).seenAfter := by
      unfold persistedAfter
      rw [hsaved]
      simp
    rw [hseen1]
    have hmem : ∀ p ∈ kstartupNewHits ∅ kitems,
        p.1 ∈ (runKstartup (fun _ => true) ∅ kitems).seenAfter := by
      intro p hp
      rw [hr1]
      exact (kstartupLoop_all_ok (kstartupNewHits ∅ kitems) 0 ∅).2 p hp
    have hempty2 : (kstartupNewHits
        ((runKstartup (fun _ => true) ∅ kitems).seenAfter) kitems).isEmpty = true := by
      cases h2 : kstartupNewHits ((runKstartup (fun _ => true) ∅ kitems).seenAfter) kitems with
      | nil => rfl
      | cons q t =>
        exfalso
        have hq : q ∈ kstartupNewHits
            ((runKstartup (fun _ => true) ∅ kitems).seenAfter) kitems := by
          rw [h2]
          exact List.mem_cons_self q t
        have hchar := (mem_kstartupNewHits _ kitems q).1 hq
        have hq1 : q ∈ kstartupNewHits ∅ kitems :=
          (mem_kstartupNewHits ∅ kitems q).2 ⟨hchar.1, hchar.2.1, by simp⟩
        exact hchar.2.2 (hmem q hq1)
    have hr2 : ∀ S : Finset String, (kstartupNewHits S kitems).isEmpty = true →
        runKstartup (fun _ => true) S kitems = ⟨[], [], S, false⟩ := by
      intro S hS
      unfold runKstartup
      rw [if_pos hS]
    rw [hr2 _ hempty2]
    exact ⟨rfl, rfl⟩

/-- C1 amended: for a fixed fetched payload, an empty initial seen-set and
all sends succeeding, a second run of either seen-set pipeline sends zero
messages whenever the number of new candidates is within the per-run cap (60
for Bizinfo, 30 for K-Startup): every sent candidate is persisted as seen,
and the re-surfacing relevance-matched-but-unclassified Bizinfo candidates
still classify to no category.  Beyond the cap the second run sends the
overflow (see the counterexample); and the IRIS pipeline keeps no seen-set at
all: every run - first or repeated - delivers exactly the one digest built
from the page, never zero messages. -/
theorem claim1_amended :
    (∀ items : List Item, (computeNewHits ∅ items).length ≤ 60 →
      (runBizinfo (fun _ => true)
          (persistedAfter ∅ (runBizinfo (fun _ => true) ∅ items)) items).msgs = [] ∧
      (runBizinfo (fun _ => true)
          (persistedAfter ∅ (runBizinfo (fun _ => true) ∅ items)) items).sent = []) ∧
    (∀ kitems : List KItem, (kstartupNewHits ∅ kitems).length ≤ 30 →
      (runKstartup (fun _ => true)
          (persistedAfter ∅ (runKstartup (fun _ => true) ∅ kitems)) kitems).msgs = [] ∧
      (runKstartup (fun _ => true)
          (persistedAfter ∅ (runKstartup (fun _ => true) ∅ kitems)) kitems).sent = []) ∧
    (∀ text : String,
      runIris (fun _ => true) text
        = [build_message (extract_receiving_items text 40) 12]) :=
  ⟨bizinfo_secondRun_empty, kstartup_secondRun_empty, fun _ => rfl⟩

/-- Sixty-one export candidates with distinct identifiers "0".."60": one more
than the per-run cap. -/
def demo61 : List Item :=
  (List.range 61).map (fun i => { title := "수출", seq := toString i })

/-- C1 counterexample: with 61 new relevance-matched candidates, the first
run caps at 60 and sends one export digest; the second run, on the persisted
state, picks up the 61st candidate and sends again - the second run does NOT
send zero messages, so the idempotency claim is false as stated for payloads
beyond the cap. -/
theorem claim1_counterexample :
    (runBizinfo (fun _ => true) ∅ demo61).msgs.length = 1 ∧
    (runBizinfo (fun _ => true) ∅ demo61).saved = true ∧
    (runBizinfo (fun _ => true)
        (persistedAfter ∅ (runBizinfo (fun _ => true) ∅ demo61)) demo61).msgs ≠ [] := by
  decide

/-- C1 witness: the amended statement at concrete under-cap payloads of both
seen-set pipelines (the second runs send nothing) and at a concrete page text
for IRIS (one digest per run). -/
theorem claim1_witness :
    ((runBizinfo (fun _ => true)
        (persistedAfter ∅ (runBizinfo (fun _ => true) ∅ [itemExportA, itemFin]))
        [itemExportA, itemFin]).msgs = [] ∧
      (runBizinfo (fun _ => true)
        (persistedAfter ∅ (runBizinfo (fun _ => true) ∅ [itemExportA, itemFin]))
        [itemExportA, itemFin]).sent = []) ∧
    ((runKstartup (fun _ => true)
        (persistedAfter ∅ (runKstartup (fun _ => true) ∅ [⟨"수출 지원사업", "https://k.io/1"⟩]))
        [⟨"수출 지원사업", "https://k.io/1"⟩]).msgs = [] ∧
      (runKstartup (fun _ => true)
        (persistedAfter ∅ (runKstartup (fun _ => true) ∅ [⟨"수출 지원사업", "https://k.io/1"⟩]))
        [⟨"수출 지원사업", "https://k.io/1"⟩]).sent = []) ∧
    runIris (fun _ => true) "" = [build_message (extract_receiving_items "" 40) 12] :=
  ⟨claim1_amended.1 [itemExportA, itemFin] (by decide),
   claim1_amended.2.1 [⟨"수출 지원사업", "https://k.io/1"⟩] (by decide),
   claim1_amended.2.2 ""⟩

/-! ## Claim C8: IRIS scanner cursor and termination -/

lemma seek_le : ∀ (ls : List String) (t : Option String),
    (seekTitleMeta ls t).2.2 ≤ ls.length := by
  intro ls
  induction ls with
  | nil => intro t; simp [seekTitleMeta]
  | cons l rest ih =>
    intro t
    simp only [seekTitleMeta]
    split
    · simp
    · split
      · simpa using Nat.succ_le_succ (ih t)
      · split
        · simpa using Nat.succ_le_succ (ih (some l))
        · simpa using Nat.succ_le_succ (ih t)

/-- The outer-loop cursor strictly increases at every iteration and never
jumps past the end of the line list. -/
lemma scanStep_bounds (lines : List String) (i : Nat) (hi : i < lines.length) :
    i < (scanStep lines i).1 ∧ (scanStep lines i).1 ≤ lines.length := by
  have hn := seek_le (lines.drop (i + 1)) none
  rw [List.length_drop] at hn
  by_cases hm : ministryMatch (lines.getD i "").data = true
  · have hcur : (scanStep lines i).1
        = i + 1 + (seekTitleMeta (lines.drop (i + 1)) none).2.2 := by
      simp only [scanStep, hm, if_true]
      rw [if_pos (by omega)]
    rw [hcur]
    constructor <;> omega
  · have hm2 : ministryMatch (lines.getD i "").data = false := by
      simpa using hm
    rw [List.getD_eq_getElem?_getD] at hm2
    have hcur : (scanStep lines i).1 = i + 1 := by
      simp [scanStep, hm2]
    rw [hcur]
    constructor <;> omega

/-- A line that does not match the organization pattern is skipped one line
at a time, emitting nothing. -/
lemma scanStep_unmatched (lines : List String) (i : Nat)
    (hm : ministryMatch (lines.getD i "").data = false) :
    (scanStep lines i).1 = i + 1 ∧ (scanStep lines i).2 = none := by
  rw [List.getD_eq_getElem?_getD] at hm
  constructor <;> simp [scanStep, hm]

lemma scanGo_fuel_step (lines : List String) (limit : Nat) :
    ∀ (f i : Nat) (acc : List IrisItem), lines.length - i ≤ f →
      scanGo lines limit (f + 1) i acc = scanGo lines limit f i acc := by
  intro f
  induction f with
  | zero =>
    intro i acc h
    have hc : ¬(i < lines.length ∧ acc.length < limit) := by
      rintro ⟨h1, _⟩
      omega
    simp [scanGo, hc]
  | succ f ih =>
    intro i acc h
    by_cases hc : i < lines.length ∧ acc.length < limit
    · simp only [scanGo, if_pos hc]
      apply ih
      have hb := scanStep_bounds lines i hc.1
      omega
    · simp [scanGo, hc]

lemma scanGo_fuel_ge (lines : List String) (limit : Nat) :
    ∀ d : Nat, scanGo lines limit (lines.length + d) 0 []
      = scanGo lines limit lines.length 0 [] := by
  intro d
  induction d with
  | zero => rfl
  | succ d ih =>
    rw [show lines.length + (d + 1) = (lines.length + d) + 1 from rfl,
      scanGo_fuel_step lines limit (lines.length + d) 0 [] (by omega)]
    exact ih

/-- C8 amended: the scanner terminates - its cursor strictly increases on
every iteration and stays within the line list, so the fuelled loop is
already stable at fuel = number of lines (any extra fuel changes nothing);
unmatched lines are skipped one at a time emitting nothing.  However, when a
metadata line is found the cursor advances TO it, not past it, so a consumed
metadata line that itself matches the organization pattern is consumed a
second time as the organization of the next record (see the
counterexample). -/
theorem claim8_amended :
    (∀ (lines : List String) (i : Nat), i < lines.length →
      i < (scanStep lines i).1 ∧ (scanStep lines i).1 ≤ lines.length) ∧
    (∀ (lines : List String) (i : Nat),
      ministryMatch (lines.getD i "").data = false →
      (scanStep lines i).1 = i + 1 ∧ (scanStep lines i).2 = none) ∧
    (∀ (text : String) (limit d : Nat),
      scanGo (irisLines text) limit ((irisLines text).length + d) 0 []
        = extract_receiving_items text limit) := by
  refine ⟨scanStep_bounds, scanStep_unmatched, ?_⟩
  intro text limit d
  unfold extract_receiving_items
  exact scanGo_fuel_ge (irisLines text) limit d

/-- IRIS page text whose first record's metadata line contains a
`" > "` separator, so it also matches the organization pattern. -/
def demoIrisText : String :=
  "#### 접수중\nA부 > B원\nT1공고\n공고번호 : X > Y 공고일자 :2026-01-01 공고상태 : 공고접수중\nT2공고\n공고번호 : Z 공고일자 :2026-02-02 공고상태 : 공고접수중"

/-- C8 counterexample: the metadata line of the first record (supplying its
date and status) is re-scanned and consumed again as the organization line of
a second extracted record - one line feeds two records, refuting "no line is
consumed by more than one extracted record". -/
theorem claim8_counterexample :
    extract_receiving_items demoIrisText 30
      = [⟨"A부 > B원", "T1공고", "2026-01-01", "공고접수중", IRIS_LIST_URL⟩,
         ⟨"공고번호 : X > Y 공고일자 :2026-01-01 공고상태 : 공고접수중", "T2공고",
          "2026-02-02", "공고접수중", IRIS_LIST_URL⟩] := by
  decide

/-- C8 witness: a non-matching line is skipped one line at a time. -/
theorem claim8_witness :
    (scanStep ["xy"] 0).1 = 0 + 1 ∧ (scanStep ["xy"] 0).2 = none :=
  claim8_amended.2.1 ["xy"] 0 (by decide)
